import Mathlib

/-!
Shallow embedding of `commercetools/resource_discount_code.go` from
`terraform-provider-commercetools`: the discount-code resource's four
lifecycle handlers (create / read / update / delete), its marshalling
helpers, and the update-action diffing logic.

Remote calls are modelled by an environment record giving the response of
each call site; every handler returns the trace of remote calls it issued,
the resulting resource data, and the diagnostics it produced.  External
helpers that live outside this file's source (the time parser, the time
formatter and the retry-error classifier of `handleCommercetoolsError`)
are abstracted as parameters in a `Helpers` record, so every theorem below
holds for every choice of them.
-/

namespace DiscountCodeResource

/-- A Go `platform.LocalizedString`: a locale-to-text map, modelled as an
association list. -/
abbrev LocalizedString := List (String × String)

/-- A Go `error` value as the handlers observe it: either a
`platform.ErrorResponse` (carrying an HTTP status code), a time-parse
error, or any other error. -/
inductive GoError where
  | errorResponse (statusCode : Int) (message : String)
  | parseError (message : String)
  | basic (message : String)
deriving DecidableEq, Repr

/-- `platform.CartDiscountResourceIdentifier` (its `ID` field is a
`*string`). -/
structure CartDiscountResourceIdentifier where
  id : Option String
deriving DecidableEq, Repr

/-- `platform.CartDiscountReference` (its `ID` field is a `string`). -/
structure CartDiscountReference where
  id : String
deriving DecidableEq, Repr

/-- The schema-level field values of one discount-code configuration,
typed as the schema declares them (`valid_from`/`valid_until` are raw
strings; `cart_discounts` and `groups` are string lists). -/
structure DiscountCodeState where
  name : LocalizedString
  description : LocalizedString
  code : String
  predicate : String
  isActive : Bool
  maxApplicationsPerCustomer : Int
  maxApplications : Int
  groups : List String
  cartDiscounts : List String
  validFrom : String
  validUntil : String
deriving DecidableEq, Repr

/-- `*schema.ResourceData`: the resource id, the prior state (`old`, what
`d.HasChange` compares against), the current configuration (`new`, what
`d.Get` returns and `d.Set` writes), and the computed `version` field. -/
structure ResourceData where
  id : String
  old : DiscountCodeState
  new : DiscountCodeState
  version : Int
deriving DecidableEq, Repr

/-- `platform.DiscountCode` as the read/update handlers consume it
(pointer-typed fields become `Option`). -/
structure DiscountCode where
  id : String
  version : Int
  code : String
  name : Option LocalizedString
  description : Option LocalizedString
  cartPredicate : Option String
  cartDiscounts : List CartDiscountReference
  groups : List String
  isActive : Option Bool
  validFrom : Option Int
  validUntil : Option Int
  maxApplicationsPerCustomer : Option Int
  maxApplications : Option Int
deriving DecidableEq, Repr

/-- `platform.DiscountCodeDraft` as built by the create handler. -/
structure DiscountCodeDraft where
  name : Option LocalizedString
  description : Option LocalizedString
  code : String
  cartPredicate : Option String
  isActive : Option Bool
  maxApplicationsPerCustomer : Option Int
  maxApplications : Option Int
  groups : List String
  cartDiscounts : List CartDiscountResourceIdentifier
  validFrom : Option Int
  validUntil : Option Int
deriving DecidableEq, Repr

/-- The `platform.DiscountCodeUpdateAction` vocabulary used by the update
handler.  `setValidFrom none` / `setValidUntil none` are the actions built
with no timestamp (the unset form `&platform.DiscountCodeSetValidFromAction{}`). -/
inductive DiscountCodeUpdateAction where
  | setName (name : LocalizedString)
  | setDescription (description : LocalizedString)
  | setCartPredicate (cartPredicate : String)
  | setMaxApplications (maxApplications : Int)
  | setMaxApplicationsPerCustomer (maxApplicationsPerCustomer : Int)
  | changeCartDiscounts (cartDiscounts : List CartDiscountResourceIdentifier)
  | changeGroups (groups : List String)
  | changeIsActive (isActive : Bool)
  | setValidFrom (validFrom : Option Int)
  | setValidUntil (validUntil : Option Int)
deriving DecidableEq, Repr

/-- `platform.DiscountCodeUpdate`: the payload of the update post. -/
structure DiscountCodeUpdate where
  version : Int
  actions : List DiscountCodeUpdateAction
deriving DecidableEq, Repr

/-- One remote API call, as recorded in a handler's trace. -/
inductive RemoteCall where
  | postCreate (draft : DiscountCodeDraft)
  | getById (id : String)
  | postUpdate (id : String) (input : DiscountCodeUpdate)
  | deleteById (id : String) (version : Int) (dataErasure : Bool)
deriving DecidableEq, Repr

/-- One `diag.Diagnostic`: `diag.FromErr` of an error, or `diag.Errorf`
of a message. -/
inductive Diag where
  | fromErr (e : GoError)
  | errorf (message : String)
deriving DecidableEq, Repr

/-- `diag.Diagnostics`. -/
abbrev Diagnostics := List Diag

/-- The classification `handleCommercetoolsError` gives an error inside
`resource.RetryContext`: retry it or give up. -/
inductive RetryClass where
  | retryable
  | nonRetryable
deriving DecidableEq, Repr

/-- Helper functions of the repository that live outside this source file,
abstracted as parameters: `unmarshallTime` (a fallible string-to-time
parser), `marshallTime` (formatting an optional time, empty for `nil`),
and the retry classification applied by `handleCommercetoolsError`.
Modelled from the spec: the spec describes them only as "small pure helper
functions (string/time marshalling)" and a retry wrapper, so every theorem
quantifies over them. -/
structure Helpers where
  unmarshallTime : String → Except GoError Int
  marshallTime : Option Int → String
  handleCommercetoolsError : GoError → RetryClass

/-- `unmarshallDiscountCodeGroups`: `expandStringArray(d.Get("groups"))`,
which on a typed state is the groups list itself. -/
def unmarshallDiscountCodeGroups (d : ResourceData) : List String :=
  d.new.groups

/-- `unmarshallDiscountCodeCartDiscounts`: wraps each configured
cart-discount id string in a `CartDiscountResourceIdentifier` whose `ID`
points at that string. -/
def unmarshallDiscountCodeCartDiscounts (d : ResourceData) :
    List CartDiscountResourceIdentifier :=
  d.new.cartDiscounts.map (fun id => { id := some id })

/-- `marshallDiscountCodeCartDiscounts`: extracts the `ID` of each
`CartDiscountReference`. -/
def marshallDiscountCodeCartDiscounts (values : List CartDiscountReference) :
    List String :=
  values.map (fun v => v.id)

/-- The references carrying the ids held by a list of resource
identifiers (a `nil` id pointer dereferences to the empty string). -/
def referencesCarrying (l : List CartDiscountResourceIdentifier) :
    List CartDiscountReference :=
  l.map (fun c => { id := c.id.getD "" })

/-- Lines 208-268 of `resourceDiscountCodeUpdate`: the sequential
`if d.HasChange(field) then append action` statements for the eight
fields whose handling cannot fail, in source order. -/
def buildPureActions (d : ResourceData) : List DiscountCodeUpdateAction :=
  let actions : List DiscountCodeUpdateAction := []
  let actions := if d.old.name ≠ d.new.name then
      actions ++ [.setName d.new.name] else actions
  let actions := if d.old.description ≠ d.new.description then
      actions ++ [.setDescription d.new.description] else actions
  let actions := if d.old.predicate ≠ d.new.predicate then
      actions ++ [.setCartPredicate d.new.predicate] else actions
  let actions := if d.old.maxApplications ≠ d.new.maxApplications then
      actions ++ [.setMaxApplications d.new.maxApplications] else actions
  let actions := if d.old.maxApplicationsPerCustomer ≠ d.new.maxApplicationsPerCustomer then
      actions ++ [.setMaxApplicationsPerCustomer d.new.maxApplicationsPerCustomer] else actions
  let actions := if d.old.cartDiscounts ≠ d.new.cartDiscounts then
      actions ++ [.changeCartDiscounts (unmarshallDiscountCodeCartDiscounts d)] else actions
  let actions := if d.old.groups ≠ d.new.groups then
      (let newGroups := unmarshallDiscountCodeGroups d
       if newGroups.length > 0 then
         actions ++ [.changeGroups newGroups]
       else
         actions ++ [.changeGroups []])
    else actions
  let actions := if d.old.isActive ≠ d.new.isActive then
      actions ++ [.changeIsActive d.new.isActive] else actions
  actions

/-- Lines 203-300 of `resourceDiscountCodeUpdate`: the update-action list
built from the field-by-field `HasChange` comparisons, in source order.
A failing time parse of a non-empty `valid_from`/`valid_until` aborts with
that error (the handler returns `diag.FromErr`). -/
def buildDiscountCodeUpdateActions (h : Helpers) (d : ResourceData) :
    Except GoError (List DiscountCodeUpdateAction) := do
  let actions : List DiscountCodeUpdateAction := buildPureActions d
  let actions ← (if d.old.validFrom ≠ d.new.validFrom then
      (if d.new.validFrom.length > 0 then
        (h.unmarshallTime d.new.validFrom).map
          (fun t => actions ++ [.setValidFrom (some t)])
      else .ok (actions ++ [.setValidFrom none]))
    else .ok actions : Except GoError (List DiscountCodeUpdateAction))
  let actions ← (if d.old.validUntil ≠ d.new.validUntil then
      (if d.new.validUntil.length > 0 then
        (h.unmarshallTime d.new.validUntil).map
          (fun t => actions ++ [.setValidUntil (some t)])
      else .ok (actions ++ [.setValidUntil none]))
    else .ok actions : Except GoError (List DiscountCodeUpdateAction))
  return actions

/-- The environment of one read: the response to the get-by-id call. -/
structure ReadEnv where
  getResp : Except GoError (Option DiscountCode)

/-- The field writes of the read handler's success branch (`d.Set` of each
schema field from the fetched discount code; a `nil` pointer writes the
field's zero value). -/
def setFromDiscountCode (h : Helpers) (d : ResourceData) (dc : DiscountCode) :
    ResourceData :=
  { d with
    version := dc.version
    new := { d.new with
      code := dc.code
      name := dc.name.getD []
      description := dc.description.getD []
      predicate := dc.cartPredicate.getD ""
      cartDiscounts := marshallDiscountCodeCartDiscounts dc.cartDiscounts
      groups := dc.groups
      isActive := dc.isActive.getD false
      validFrom := h.marshallTime dc.validFrom
      validUntil := h.marshallTime dc.validUntil
      maxApplicationsPerCustomer := dc.maxApplicationsPerCustomer.getD 0
      maxApplications := dc.maxApplications.getD 0 } }

/-- `resourceDiscountCodeRead`: one get-by-id call; a 404 `ErrorResponse`
or a missing discount code clears the id and returns nil diagnostics; any
other error is forwarded with `diag.FromErr`; on success the fetched
fields are written back. -/
def resourceDiscountCodeRead (h : Helpers) (env : ReadEnv) (d : ResourceData) :
    List RemoteCall × ResourceData × Diagnostics :=
  let calls := [RemoteCall.getById d.id]
  match env.getResp with
  | .error e =>
    match e with
    | .errorResponse statusCode _ =>
      if statusCode = 404 then (calls, { d with id := "" }, [])
      else (calls, d, [.fromErr e])
    | _ => (calls, d, [.fromErr e])
  | .ok none => (calls, { d with id := "" }, [])
  | .ok (some dc) => (calls, setFromDiscountCode h d dc, [])

/-- The environment of one update: the responses to the initial get, the
update post, and the trailing read's get. -/
structure UpdateEnv where
  getResp : Except GoError DiscountCode
  postResp : Except GoError Unit
  readResp : Except GoError (Option DiscountCode)

/-- `resourceDiscountCodeUpdate`: fetch the current discount code, build
the update-action list from the changed fields, post it against the
fetched version, then re-read.  Every error of the get, of the action
building, or of the post is forwarded with `diag.FromErr`. -/
def resourceDiscountCodeUpdate (h : Helpers) (env : UpdateEnv) (d : ResourceData) :
    List RemoteCall × ResourceData × Diagnostics :=
  match env.getResp with
  | .error e => ([.getById d.id], d, [.fromErr e])
  | .ok discountCode =>
    match buildDiscountCodeUpdateActions h d with
    | .error e => ([.getById d.id], d, [.fromErr e])
    | .ok actions =>
      let input : DiscountCodeUpdate :=
        { version := discountCode.version, actions := actions }
      match env.postResp with
      | .error e =>
        ([.getById d.id, .postUpdate discountCode.id input], d, [.fromErr e])
      | .ok _ =>
        let r := resourceDiscountCodeRead h { getResp := env.readResp } d
        ([.getById d.id, .postUpdate discountCode.id input] ++ r.1, r.2.1, r.2.2)

/-- The environment of one create: the response of each successive
attempt of the create post (attempt `n` receives `postResp n`), and the
response of the trailing read's get. -/
structure CreateEnv where
  postResp : Nat → Except GoError (Option DiscountCode)
  readResp : Except GoError (Option DiscountCode)

/-- `resource.RetryContext(ctx, 1*time.Minute, ...)` around the create
post: attempt the call; on success stop; on an error classified
non-retryable stop with it; on a retryable error wait and try again, until
the one-minute window closes.  `fuel` is the number of further attempts
the window still admits, so the loop makes at most `fuel + 1` attempts. -/
def retryCreatePost (h : Helpers) (env : CreateEnv) (draft : DiscountCodeDraft) :
    Nat → Nat → List RemoteCall × Except GoError (Option DiscountCode)
  | attempt, fuel =>
    match env.postResp attempt, fuel with
    | .ok dc, _ => ([.postCreate draft], .ok dc)
    | .error e, 0 => ([.postCreate draft], .error e)
    | .error e, fuel + 1 =>
      match h.handleCommercetoolsError e with
      | .nonRetryable => ([.postCreate draft], .error e)
      | .retryable =>
        let (calls, r) := retryCreatePost h env draft (attempt + 1) fuel
        (.postCreate draft :: calls, r)

/-- The `platform.DiscountCodeDraft` the create handler posts: the
configured field values, with the parsed validity bounds (absent when the
configured strings are empty). -/
def discountCodeDraftOf (d : ResourceData) (validFrom validUntil : Option Int) :
    DiscountCodeDraft :=
  { name := some d.new.name
    description := some d.new.description
    code := d.new.code
    cartPredicate := some d.new.predicate
    isActive := some d.new.isActive
    maxApplicationsPerCustomer := some d.new.maxApplicationsPerCustomer
    maxApplications := some d.new.maxApplications
    groups := unmarshallDiscountCodeGroups d
    cartDiscounts := unmarshallDiscountCodeCartDiscounts d
    validFrom := validFrom
    validUntil := validUntil }

/-- `resourceDiscountCodeCreate`: build the draft from the configuration
(parsing `valid_from`/`valid_until` when non-empty and returning the parse
error as a diagnostic, before any remote call), post it under the bounded
retry, then set the id and version and re-read. -/
def resourceDiscountCodeCreate (h : Helpers) (env : CreateEnv) (fuel : Nat)
    (d : ResourceData) : List RemoteCall × ResourceData × Diagnostics :=
  match (if d.new.validFrom.length > 0 then
          (h.unmarshallTime d.new.validFrom).map some
         else .ok none : Except GoError (Option Int)) with
  | .error e => ([], d, [.fromErr e])
  | .ok validFrom =>
    match (if d.new.validUntil.length > 0 then
            (h.unmarshallTime d.new.validUntil).map some
           else .ok none : Except GoError (Option Int)) with
    | .error e => ([], d, [.fromErr e])
    | .ok validUntil =>
      let draft := discountCodeDraftOf d validFrom validUntil
      match retryCreatePost h env draft 0 fuel with
      | (calls, .error e) => (calls, d, [.fromErr e])
      | (calls, .ok none) => (calls, d, [.errorf "No discount code created"])
      | (calls, .ok (some discountCode)) =>
        let d' := { d with id := discountCode.id, version := discountCode.version }
        let r := resourceDiscountCodeRead h { getResp := env.readResp } d'
        (calls ++ r.1, r.2.1, r.2.2)

/-- The environment of one delete: the response of the delete call. -/
structure DeleteEnv where
  deleteResp : Except GoError (Option DiscountCode)

/-- `resourceDiscountCodeDelete`: one delete call with the stored version
and `DataErasure(true)`; an error is logged and swallowed, so the handler
always returns nil diagnostics. -/
def resourceDiscountCodeDelete (env : DeleteEnv) (d : ResourceData) :
    List RemoteCall × ResourceData × Diagnostics :=
  let calls := [RemoteCall.deleteById d.id d.version true]
  match env.deleteResp with
  | .error _ => (calls, d, [])
  | .ok _ => (calls, d, [])

/-! Spec-side description of the update diff: per field, one action when
the field changed and none when it did not, the per-field contributions
concatenated in the source's fixed order. -/

/-- The `name` contribution to the update-action list. -/
def fieldActionsName (d : ResourceData) : List DiscountCodeUpdateAction :=
  if d.old.name ≠ d.new.name then [.setName d.new.name] else []

/-- The `description` contribution to the update-action list. -/
def fieldActionsDescription (d : ResourceData) : List DiscountCodeUpdateAction :=
  if d.old.description ≠ d.new.description then
    [.setDescription d.new.description] else []

/-- The `predicate` contribution to the update-action list. -/
def fieldActionsPredicate (d : ResourceData) : List DiscountCodeUpdateAction :=
  if d.old.predicate ≠ d.new.predicate then
    [.setCartPredicate d.new.predicate] else []

/-- The `max_applications` contribution to the update-action list. -/
def fieldActionsMaxApplications (d : ResourceData) : List DiscountCodeUpdateAction :=
  if d.old.maxApplications ≠ d.new.maxApplications then
    [.setMaxApplications d.new.maxApplications] else []

/-- The `max_applications_per_customer` contribution to the update-action
list. -/
def fieldActionsMaxApplicationsPerCustomer (d : ResourceData) :
    List DiscountCodeUpdateAction :=
  if d.old.maxApplicationsPerCustomer ≠ d.new.maxApplicationsPerCustomer then
    [.setMaxApplicationsPerCustomer d.new.maxApplicationsPerCustomer] else []

/-- The `cart_discounts` contribution to the update-action list. -/
def fieldActionsCartDiscounts (d : ResourceData) : List DiscountCodeUpdateAction :=
  if d.old.cartDiscounts ≠ d.new.cartDiscounts then
    [.changeCartDiscounts (unmarshallDiscountCodeCartDiscounts d)] else []

/-- The `groups` contribution to the update-action list. -/
def fieldActionsGroups (d : ResourceData) : List DiscountCodeUpdateAction :=
  if d.old.groups ≠ d.new.groups then
    (if (unmarshallDiscountCodeGroups d).length > 0 then
      [.changeGroups (unmarshallDiscountCodeGroups d)]
     else [.changeGroups []])
  else []

/-- The `is_active` contribution to the update-action list. -/
def fieldActionsIsActive (d : ResourceData) : List DiscountCodeUpdateAction :=
  if d.old.isActive ≠ d.new.isActive then
    [.changeIsActive d.new.isActive] else []

/-- The `valid_from` contribution: a timestamped set action when the new
value is non-empty (failing when it does not parse), the unset action when
it is empty, nothing when unchanged. -/
def fieldActionsValidFrom (h : Helpers) (d : ResourceData) :
    Except GoError (List DiscountCodeUpdateAction) :=
  if d.old.validFrom ≠ d.new.validFrom then
    (if d.new.validFrom.length > 0 then
      (h.unmarshallTime d.new.validFrom).map (fun t => [.setValidFrom (some t)])
     else .ok [.setValidFrom none])
  else .ok []

/-- The `valid_until` contribution, analogous to `valid_from`. -/
def fieldActionsValidUntil (h : Helpers) (d : ResourceData) :
    Except GoError (List DiscountCodeUpdateAction) :=
  if d.old.validUntil ≠ d.new.validUntil then
    (if d.new.validUntil.length > 0 then
      (h.unmarshallTime d.new.validUntil).map (fun t => [.setValidUntil (some t)])
     else .ok [.setValidUntil none])
  else .ok []

/-- The contributions of the eight fields whose handling cannot fail, in
the source's order. -/
def pureFieldActions (d : ResourceData) : List DiscountCodeUpdateAction :=
  fieldActionsName d ++ fieldActionsDescription d ++ fieldActionsPredicate d ++
    fieldActionsMaxApplications d ++ fieldActionsMaxApplicationsPerCustomer d ++
    fieldActionsCartDiscounts d ++ fieldActionsGroups d ++ fieldActionsIsActive d

lemma validFrom_scrutinee_eq (h : Helpers) (d : ResourceData)
    (acc : List DiscountCodeUpdateAction) :
    (if d.old.validFrom ≠ d.new.validFrom then
      (if d.new.validFrom.length > 0 then
        (h.unmarshallTime d.new.validFrom).map
          (fun t => acc ++ [.setValidFrom (some t)])
      else .ok (acc ++ [.setValidFrom none]))
     else .ok acc : Except GoError (List DiscountCodeUpdateAction)) =
    (fieldActionsValidFrom h d).map (fun s => acc ++ s) := by
  unfold fieldActionsValidFrom
  split_ifs with h1 h2
  · cases h.unmarshallTime d.new.validFrom <;> simp [Except.map]
  · simp [Except.map]
  · simp [Except.map]

lemma validUntil_scrutinee_eq (h : Helpers) (d : ResourceData)
    (acc : List DiscountCodeUpdateAction) :
    (if d.old.validUntil ≠ d.new.validUntil then
      (if d.new.validUntil.length > 0 then
        (h.unmarshallTime d.new.validUntil).map
          (fun t => acc ++ [.setValidUntil (some t)])
      else .ok (acc ++ [.setValidUntil none]))
     else .ok acc : Except GoError (List DiscountCodeUpdateAction)) =
    (fieldActionsValidUntil h d).map (fun s => acc ++ s) := by
  unfold fieldActionsValidUntil
  split_ifs with h1 h2
  · cases h.unmarshallTime d.new.validUntil <;> simp [Except.map]
  · simp [Except.map]
  · simp [Except.map]

lemma ite_append_extract {α : Type} (c : Prop) [Decidable c] (acc seg : List α) :
    (if c then acc ++ seg else acc) = acc ++ (if c then seg else []) := by
  split <;> simp

lemma ite_ite_append_extract {α : Type} (c c' : Prop) [Decidable c] [Decidable c']
    (acc s1 s2 : List α) :
    (if c then (if c' then acc ++ s1 else acc ++ s2) else acc) =
      acc ++ (if c then (if c' then s1 else s2) else []) := by
  split
  · split <;> simp
  · simp

lemma buildPureActions_eq (d : ResourceData) :
    buildPureActions d = pureFieldActions d := by
  simp only [buildPureActions, ite_ite_append_extract, ite_append_extract]
  simp only [pureFieldActions, fieldActionsName, fieldActionsDescription,
    fieldActionsPredicate, fieldActionsMaxApplications,
    fieldActionsMaxApplicationsPerCustomer, fieldActionsCartDiscounts,
    fieldActionsGroups, fieldActionsIsActive, List.nil_append,
    List.append_assoc]

lemma exceptMap_ok {ε α β : Type} (f : α → β) (a : α) :
    Except.map f (Except.ok a : Except ε α) = .ok (f a) := rfl

lemma exceptMap_error {ε α β : Type} (f : α → β) (e : ε) :
    Except.map f (Except.error e : Except ε α) = .error e := rfl

lemma exceptBind_ok {ε α β : Type} (a : α) (f : α → Except ε β) :
    (Except.ok a : Except ε α) >>= f = f a := rfl

lemma exceptBind_error {ε α β : Type} (e : ε) (f : α → Except ε β) :
    (Except.error e : Except ε α) >>= f = .error e := rfl

lemma exceptDotBind_ok {ε α β : Type} (a : α) (f : α → Except ε β) :
    Except.bind (Except.ok a : Except ε α) f = f a := rfl

lemma exceptDotBind_error {ε α β : Type} (e : ε) (f : α → Except ε β) :
    Except.bind (Except.error e : Except ε α) f = .error e := rfl

/-- The update-action builder decomposes as the fixed-order concatenation
of the per-field contributions. -/
lemma buildDiscountCodeUpdateActions_eq (h : Helpers) (d : ResourceData) :
    buildDiscountCodeUpdateActions h d =
      (fieldActionsValidFrom h d).bind (fun vf =>
        (fieldActionsValidUntil h d).map (fun vu =>
          pureFieldActions d ++ vf ++ vu)) := by
  simp only [buildDiscountCodeUpdateActions, buildPureActions_eq]
  rw [validFrom_scrutinee_eq]
  cases hvf : fieldActionsValidFrom h d with
  | error e => rfl
  | ok vf =>
    simp only [exceptMap_ok, exceptBind_ok, exceptDotBind_ok]
    rw [validUntil_scrutinee_eq]
    cases hvu : fieldActionsValidUntil h d with
    | error e => rfl
    | ok vu =>
      simp only [exceptMap_ok, exceptBind_ok, exceptDotBind_ok,
        List.append_assoc]
      rfl

lemma fieldActionsName_length (d : ResourceData) :
    (fieldActionsName d).length = if d.old.name ≠ d.new.name then 1 else 0 := by
  unfold fieldActionsName; split <;> rfl

lemma fieldActionsDescription_length (d : ResourceData) :
    (fieldActionsDescription d).length =
      if d.old.description ≠ d.new.description then 1 else 0 := by
  unfold fieldActionsDescription; split <;> rfl

lemma fieldActionsPredicate_length (d : ResourceData) :
    (fieldActionsPredicate d).length =
      if d.old.predicate ≠ d.new.predicate then 1 else 0 := by
  unfold fieldActionsPredicate; split <;> rfl

lemma fieldActionsMaxApplications_length (d : ResourceData) :
    (fieldActionsMaxApplications d).length =
      if d.old.maxApplications ≠ d.new.maxApplications then 1 else 0 := by
  unfold fieldActionsMaxApplications; split <;> rfl

lemma fieldActionsMaxApplicationsPerCustomer_length (d : ResourceData) :
    (fieldActionsMaxApplicationsPerCustomer d).length =
      if d.old.maxApplicationsPerCustomer ≠ d.new.maxApplicationsPerCustomer
      then 1 else 0 := by
  unfold fieldActionsMaxApplicationsPerCustomer; split <;> rfl

lemma fieldActionsCartDiscounts_length (d : ResourceData) :
    (fieldActionsCartDiscounts d).length =
      if d.old.cartDiscounts ≠ d.new.cartDiscounts then 1 else 0 := by
  unfold fieldActionsCartDiscounts; split <;> rfl

lemma fieldActionsGroups_length (d : ResourceData) :
    (fieldActionsGroups d).length =
      if d.old.groups ≠ d.new.groups then 1 else 0 := by
  unfold fieldActionsGroups
  split
  · split <;> rfl
  · rfl

lemma fieldActionsIsActive_length (d : ResourceData) :
    (fieldActionsIsActive d).length =
      if d.old.isActive ≠ d.new.isActive then 1 else 0 := by
  unfold fieldActionsIsActive; split <;> rfl

lemma fieldActionsValidFrom_ok_length (h : Helpers) (d : ResourceData)
    (vf : List DiscountCodeUpdateAction)
    (hvf : fieldActionsValidFrom h d = .ok vf) :
    vf.length = if d.old.validFrom ≠ d.new.validFrom then 1 else 0 := by
  unfold fieldActionsValidFrom at hvf
  split_ifs at hvf with h1 h2
  · cases hut : h.unmarshallTime d.new.validFrom <;> rw [hut] at hvf <;>
      simp [Except.map] at hvf
    simp [h1, ← hvf]
  · simp at hvf
    simp [h1, ← hvf]
  · simp at hvf
    simp [h1, ← hvf]

lemma fieldActionsValidUntil_ok_length (h : Helpers) (d : ResourceData)
    (vu : List DiscountCodeUpdateAction)
    (hvu : fieldActionsValidUntil h d = .ok vu) :
    vu.length = if d.old.validUntil ≠ d.new.validUntil then 1 else 0 := by
  unfold fieldActionsValidUntil at hvu
  split_ifs at hvu with h1 h2
  · cases hut : h.unmarshallTime d.new.validUntil <;> rw [hut] at hvu <;>
      simp [Except.map] at hvu
    simp [h1, ← hvu]
  · simp at hvu
    simp [h1, ← hvu]
  · simp at hvu
    simp [h1, ← hvu]

/-- A concrete discount-code state used to instantiate theorems. -/
def sampleState : DiscountCodeState :=
  { name := [("en", "x")], description := [], code := "c", predicate := "",
    isActive := true, maxApplicationsPerCustomer := 0, maxApplications := 0,
    groups := [], cartDiscounts := ["cd1"], validFrom := "", validUntil := "" }

/-- A concrete resource with no pending change. -/
def sampleData : ResourceData :=
  { id := "dc-1", old := sampleState, new := sampleState, version := 1 }

/-- A concrete resource whose `name` field changed. -/
def sampleDataChanged : ResourceData :=
  { id := "dc-1", old := sampleState,
    new := { sampleState with name := [("en", "y")] }, version := 1 }

/-- A concrete instantiation of the external helpers: a parser accepting
only `"2020"`, a formatter printing the timestamp, and a classifier
retrying server errors. -/
def sampleHelpers : Helpers :=
  { unmarshallTime := fun s =>
      if s = "2020" then .ok 2020 else .error (.parseError s)
    marshallTime := fun t => match t with | some n => toString n | none => ""
    handleCommercetoolsError := fun e => match e with
      | .errorResponse statusCode _ =>
        if statusCode ≥ 500 then .retryable else .nonRetryable
      | _ => .nonRetryable }

/-- A successful run of the builder yields exactly the fixed-order
concatenation of the per-field contributions. -/
lemma build_ok_eq_segments (h : Helpers) (d : ResourceData)
    (acts : List DiscountCodeUpdateAction)
    (hok : buildDiscountCodeUpdateActions h d = .ok acts) :
    ∃ vf vu, fieldActionsValidFrom h d = .ok vf ∧
      fieldActionsValidUntil h d = .ok vu ∧
      acts = pureFieldActions d ++ vf ++ vu := by
  rw [buildDiscountCodeUpdateActions_eq] at hok
  cases hvf : fieldActionsValidFrom h d with
  | error e => rw [hvf] at hok; simp [exceptDotBind_error] at hok
  | ok vf =>
    cases hvu : fieldActionsValidUntil h d with
    | error e =>
      rw [hvf, hvu] at hok
      simp [exceptDotBind_ok, exceptMap_error] at hok
    | ok vu =>
      rw [hvf, hvu] at hok
      simp only [exceptDotBind_ok, exceptMap_ok, Except.ok.injEq] at hok
      exact ⟨vf, vu, rfl, rfl, hok.symm⟩

/-- C1: `resourceDiscountCodeUpdate` builds the update-action list by
appending exactly one action per changed field and none for an unchanged
field, for the ten fields `name`, `description`, `predicate`,
`max_applications`, `max_applications_per_customer`, `cart_discounts`,
`groups`, `is_active`, `valid_from`, `valid_until`, in that fixed order;
when no field changed the list is empty. -/
theorem update_actions_one_per_changed_field (h : Helpers) (d : ResourceData)
    (acts : List DiscountCodeUpdateAction)
    (hok : buildDiscountCodeUpdateActions h d = .ok acts) :
    ∃ vf vu, fieldActionsValidFrom h d = .ok vf ∧
      fieldActionsValidUntil h d = .ok vu ∧
      acts = fieldActionsName d ++ fieldActionsDescription d ++
        fieldActionsPredicate d ++ fieldActionsMaxApplications d ++
        fieldActionsMaxApplicationsPerCustomer d ++
        fieldActionsCartDiscounts d ++ fieldActionsGroups d ++
        fieldActionsIsActive d ++ vf ++ vu ∧
      ((fieldActionsName d).length = if d.old.name ≠ d.new.name then 1 else 0) ∧
      ((fieldActionsDescription d).length =
        if d.old.description ≠ d.new.description then 1 else 0) ∧
      ((fieldActionsPredicate d).length =
        if d.old.predicate ≠ d.new.predicate then 1 else 0) ∧
      ((fieldActionsMaxApplications d).length =
        if d.old.maxApplications ≠ d.new.maxApplications then 1 else 0) ∧
      ((fieldActionsMaxApplicationsPerCustomer d).length =
        if d.old.maxApplicationsPerCustomer ≠ d.new.maxApplicationsPerCustomer
        then 1 else 0) ∧
      ((fieldActionsCartDiscounts d).length =
        if d.old.cartDiscounts ≠ d.new.cartDiscounts then 1 else 0) ∧
      ((fieldActionsGroups d).length =
        if d.old.groups ≠ d.new.groups then 1 else 0) ∧
      ((fieldActionsIsActive d).length =
        if d.old.isActive ≠ d.new.isActive then 1 else 0) ∧
      (vf.length = if d.old.validFrom ≠ d.new.validFrom then 1 else 0) ∧
      (vu.length = if d.old.validUntil ≠ d.new.validUntil then 1 else 0) ∧
      (d.old = d.new → acts = []) := by
  obtain ⟨vf, vu, hvf, hvu, hacts⟩ := build_ok_eq_segments h d acts hok
  refine ⟨vf, vu, hvf, hvu, ?_, fieldActionsName_length d,
    fieldActionsDescription_length d, fieldActionsPredicate_length d,
    fieldActionsMaxApplications_length d,
    fieldActionsMaxApplicationsPerCustomer_length d,
    fieldActionsCartDiscounts_length d, fieldActionsGroups_length d,
    fieldActionsIsActive_length d,
    fieldActionsValidFrom_ok_length h d vf hvf,
    fieldActionsValidUntil_ok_length h d vu hvu, ?_⟩
  · rw [hacts]
    simp [pureFieldActions, List.append_assoc]
  · intro heq
    rw [hacts]
    simp [fieldActionsValidFrom, heq] at hvf
    simp [fieldActionsValidUntil, heq] at hvu
    simp [pureFieldActions, fieldActionsName, fieldActionsDescription,
      fieldActionsPredicate, fieldActionsMaxApplications,
      fieldActionsMaxApplicationsPerCustomer, fieldActionsCartDiscounts,
      fieldActionsGroups, fieldActionsIsActive, heq, hvf, hvu]

/-- Witness for C1: on a configuration whose only change is `name`, the
builder emits exactly the single set-name action and the decomposition
instantiates concretely. -/
theorem update_actions_one_per_changed_field_witness :
    buildDiscountCodeUpdateActions sampleHelpers sampleDataChanged =
      .ok [DiscountCodeUpdateAction.setName [("en", "y")]] ∧
    ∃ vf vu,
      fieldActionsValidFrom sampleHelpers sampleDataChanged = .ok vf ∧
      fieldActionsValidUntil sampleHelpers sampleDataChanged = .ok vu ∧
      [DiscountCodeUpdateAction.setName [("en", "y")]] =
        fieldActionsName sampleDataChanged ++
        fieldActionsDescription sampleDataChanged ++
        fieldActionsPredicate sampleDataChanged ++
        fieldActionsMaxApplications sampleDataChanged ++
        fieldActionsMaxApplicationsPerCustomer sampleDataChanged ++
        fieldActionsCartDiscounts sampleDataChanged ++
        fieldActionsGroups sampleDataChanged ++
        fieldActionsIsActive sampleDataChanged ++ vf ++ vu := by
  refine ⟨rfl, ?_⟩
  obtain ⟨vf, vu, h1, h2, h3, _⟩ :=
    update_actions_one_per_changed_field sampleHelpers sampleDataChanged
      [DiscountCodeUpdateAction.setName [("en", "y")]] rfl
  exact ⟨vf, vu, h1, h2, h3⟩

/-- C10: when `valid_from` (respectively `valid_until`) changed and its
new value is the empty string, the update handler appends the unset form
of the set-valid-from (set-valid-until) action — carrying no timestamp —
rather than failing or parsing the empty string. -/
theorem update_empty_valid_bounds_emit_unset_actions (h : Helpers)
    (d : ResourceData) :
    (d.old.validFrom ≠ d.new.validFrom → d.new.validFrom = "" →
      fieldActionsValidFrom h d = .ok [.setValidFrom none] ∧
      ∀ acts, buildDiscountCodeUpdateActions h d = .ok acts →
        DiscountCodeUpdateAction.setValidFrom none ∈ acts) ∧
    (d.old.validUntil ≠ d.new.validUntil → d.new.validUntil = "" →
      fieldActionsValidUntil h d = .ok [.setValidUntil none] ∧
      ∀ acts, buildDiscountCodeUpdateActions h d = .ok acts →
        DiscountCodeUpdateAction.setValidUntil none ∈ acts) := by
  constructor
  · intro hch hemp
    have hch' : d.old.validFrom ≠ "" := hemp ▸ hch
    have hvf : fieldActionsValidFrom h d = .ok [.setValidFrom none] := by
      simp [fieldActionsValidFrom, hemp, hch']
    refine ⟨hvf, fun acts hok => ?_⟩
    obtain ⟨vf, vu, hvf', _, hacts⟩ := build_ok_eq_segments h d acts hok
    rw [hvf] at hvf'
    injection hvf' with hvf''
    rw [hacts, ← hvf'']
    simp
  · intro hch hemp
    have hch' : d.old.validUntil ≠ "" := hemp ▸ hch
    have hvu : fieldActionsValidUntil h d = .ok [.setValidUntil none] := by
      simp [fieldActionsValidUntil, hemp, hch']
    refine ⟨hvu, fun acts hok => ?_⟩
    obtain ⟨vf, vu, _, hvu', hacts⟩ := build_ok_eq_segments h d acts hok
    rw [hvu] at hvu'
    injection hvu' with hvu''
    rw [hacts, ← hvu'']
    simp

/-- A concrete resource whose validity window was cleared: both
`valid_from` and `valid_until` changed from `"2020"` to the empty
string. -/
def sampleDataUnsetBounds : ResourceData :=
  { id := "dc-1",
    old := { sampleState with validFrom := "2020", validUntil := "2020" },
    new := sampleState, version := 1 }

/-- Witness for C10: clearing the validity window emits the two unset
actions. -/
theorem update_empty_valid_bounds_emit_unset_actions_witness :
    fieldActionsValidFrom sampleHelpers sampleDataUnsetBounds =
      .ok [.setValidFrom none] ∧
    DiscountCodeUpdateAction.setValidFrom none ∈
      [DiscountCodeUpdateAction.setValidFrom none,
       DiscountCodeUpdateAction.setValidUntil none] := by
  obtain ⟨h1, h2⟩ :=
    (update_empty_valid_bounds_emit_unset_actions sampleHelpers
      sampleDataUnsetBounds).1 (by decide) rfl
  exact ⟨h1, h2 _ rfl⟩

/-- C6: converting the configured cart-discount id strings to resource
identifiers with `unmarshallDiscountCodeCartDiscounts` and extracting the
ids again the way `marshallDiscountCodeCartDiscounts` does (from
references carrying those ids) returns the original list, preserving
length and order. -/
theorem cart_discounts_round_trip (d : ResourceData) :
    marshallDiscountCodeCartDiscounts
      (referencesCarrying (unmarshallDiscountCodeCartDiscounts d)) =
      d.new.cartDiscounts := by
  unfold marshallDiscountCodeCartDiscounts referencesCarrying
    unmarshallDiscountCodeCartDiscounts
  generalize d.new.cartDiscounts = l
  induction l with
  | nil => rfl
  | cons x xs ih =>
    simp only [List.map_cons, List.cons.injEq]
    exact ⟨rfl, ih⟩

/-- C3: the delete handler swallows every error of the remote delete
call: its diagnostics are empty whether the call succeeds or fails. -/
theorem delete_swallows_errors (env : DeleteEnv) (d : ResourceData) :
    (resourceDiscountCodeDelete env d).2.2 = [] := by
  unfold resourceDiscountCodeDelete
  cases env.deleteResp <;> rfl

/-- Recognizer of create-post calls in a trace. -/
def RemoteCall.isCreatePost : RemoteCall → Bool
  | .postCreate _ => true
  | _ => false

/-- The read handler issues exactly one remote call: the get on the
resource id. -/
lemma read_calls_eq (h : Helpers) (env : ReadEnv) (d : ResourceData) :
    (resourceDiscountCodeRead h env d).1 = [.getById d.id] := by
  unfold resourceDiscountCodeRead
  cases env.getResp with
  | error e => cases e with
    | errorResponse statusCode message =>
      dsimp only
      split <;> rfl
    | parseError message => rfl
    | basic message => rfl
  | ok v => cases v <;> rfl

/-- The delete handler issues exactly one remote call: the delete with
the stored version and data erasure. -/
lemma delete_calls_eq (env : DeleteEnv) (d : ResourceData) :
    (resourceDiscountCodeDelete env d).1 = [.deleteById d.id d.version true] := by
  unfold resourceDiscountCodeDelete
  cases env.deleteResp <;> rfl

/-- The update handler's trace is the get alone, the get then one post,
or the get, one post and the trailing read's single get. -/
lemma update_calls_cases (h : Helpers) (env : UpdateEnv) (d : ResourceData) :
    (resourceDiscountCodeUpdate h env d).1 = [.getById d.id] ∨
    (∃ dcid input, (resourceDiscountCodeUpdate h env d).1 =
      [.getById d.id, .postUpdate dcid input]) ∨
    (∃ dcid input, (resourceDiscountCodeUpdate h env d).1 =
      [.getById d.id, .postUpdate dcid input, .getById d.id]) := by
  unfold resourceDiscountCodeUpdate
  cases env.getResp with
  | error e => exact Or.inl rfl
  | ok dc =>
    cases buildDiscountCodeUpdateActions h d with
    | error e => exact Or.inl rfl
    | ok acts =>
      cases env.postResp with
      | error e => exact Or.inr (Or.inl ⟨dc.id, _, rfl⟩)
      | ok u =>
        refine Or.inr (Or.inr ⟨dc.id, { version := dc.version, actions := acts }, ?_⟩)
        dsimp only
        rw [read_calls_eq]
        rfl

/-- Every call the retry loop issues is the create post of the one
draft. -/
lemma retry_calls_all_create (h : Helpers) (env : CreateEnv)
    (draft : DiscountCodeDraft) (attempt fuel : Nat) :
    ∀ c ∈ (retryCreatePost h env draft attempt fuel).1, c = .postCreate draft := by
  induction fuel generalizing attempt with
  | zero =>
    unfold retryCreatePost
    cases env.postResp attempt <;> simp
  | succ n ih =>
    unfold retryCreatePost
    cases env.postResp attempt with
    | ok dc => simp
    | error e =>
      dsimp only
      cases h.handleCommercetoolsError e with
      | nonRetryable => simp
      | retryable =>
        dsimp only
        intro c hc
        rcases List.mem_cons.mp hc with hc | hc
        · exact hc
        · exact ih (attempt + 1) c hc

/-- The retry loop makes at least one and at most `fuel + 1` attempts. -/
lemma retry_calls_length (h : Helpers) (env : CreateEnv)
    (draft : DiscountCodeDraft) (attempt fuel : Nat) :
    1 ≤ (retryCreatePost h env draft attempt fuel).1.length ∧
      (retryCreatePost h env draft attempt fuel).1.length ≤ fuel + 1 := by
  induction fuel generalizing attempt with
  | zero =>
    unfold retryCreatePost
    cases env.postResp attempt <;> simp
  | succ n ih =>
    unfold retryCreatePost
    cases env.postResp attempt with
    | ok dc => simp
    | error e =>
      dsimp only
      cases h.handleCommercetoolsError e with
      | nonRetryable => simp
      | retryable =>
        dsimp only
        have := ih (attempt + 1)
        simp only [List.length_cons]
        omega

/-- The create handler's trace is empty (a time-parse failure before any
remote call), or `k` attempts of the one create post with `1 ≤ k ≤ fuel + 1`,
optionally followed by the trailing read's single get. -/
lemma create_calls_cases (h : Helpers) (env : CreateEnv) (fuel : Nat)
    (d : ResourceData) :
    (resourceDiscountCodeCreate h env fuel d).1 = [] ∨
    (∃ draft k, 1 ≤ k ∧ k ≤ fuel + 1 ∧
      ((resourceDiscountCodeCreate h env fuel d).1 =
          List.replicate k (RemoteCall.postCreate draft) ∨
        ∃ gid, (resourceDiscountCodeCreate h env fuel d).1 =
          List.replicate k (RemoteCall.postCreate draft) ++ [.getById gid])) := by
  unfold resourceDiscountCodeCreate
  cases hvf : (if d.new.validFrom.length > 0 then
      (h.unmarshallTime d.new.validFrom).map some
    else .ok none : Except GoError (Option Int)) with
  | error e => exact Or.inl rfl
  | ok vf =>
    cases hvu : (if d.new.validUntil.length > 0 then
        (h.unmarshallTime d.new.validUntil).map some
      else .ok none : Except GoError (Option Int)) with
    | error e => exact Or.inl rfl
    | ok vu =>
      dsimp only
      have hrep : (retryCreatePost h env (discountCodeDraftOf d vf vu) 0 fuel).1 =
          List.replicate
            (retryCreatePost h env (discountCodeDraftOf d vf vu) 0 fuel).1.length
            (RemoteCall.postCreate (discountCodeDraftOf d vf vu)) :=
        List.eq_replicate_of_mem
          (retry_calls_all_create h env (discountCodeDraftOf d vf vu) 0 fuel)
      have hlen := retry_calls_length h env (discountCodeDraftOf d vf vu) 0 fuel
      cases hr : retryCreatePost h env (discountCodeDraftOf d vf vu) 0 fuel with
      | mk calls result =>
        rw [hr] at hrep hlen
        dsimp only at hrep hlen
        cases result with
        | error e =>
          exact Or.inr ⟨discountCodeDraftOf d vf vu, calls.length,
            hlen.1, hlen.2, Or.inl hrep⟩
        | ok v =>
          cases v with
          | none =>
            exact Or.inr ⟨discountCodeDraftOf d vf vu, calls.length,
              hlen.1, hlen.2, Or.inl hrep⟩
          | some dc =>
            refine Or.inr ⟨discountCodeDraftOf d vf vu, calls.length,
              hlen.1, hlen.2, Or.inr ⟨dc.id, ?_⟩⟩
            dsimp only
            rw [read_calls_eq]
            dsimp only
            rw [← hrep]

lemma countP_replicate_create (k : Nat) (draft : DiscountCodeDraft) :
    (List.replicate k (RemoteCall.postCreate draft)).countP
      RemoteCall.isCreatePost = k := by
  induction k with
  | zero => rfl
  | succ n ih =>
    simp [List.replicate_succ, List.countP_cons, ih, RemoteCall.isCreatePost]

/-- A concrete remote discount code. -/
def sampleDiscountCode : DiscountCode :=
  { id := "dc-1", version := 2, code := "c", name := none, description := none,
    cartPredicate := none, cartDiscounts := [{ id := "cd1" }], groups := [],
    isActive := some true, validFrom := none, validUntil := none,
    maxApplicationsPerCustomer := none, maxApplications := none }

/-- A create environment whose first attempt fails with a retryable 503
and whose second attempt succeeds. -/
def retryingCreateEnv : CreateEnv :=
  { postResp := fun n =>
      if n = 0 then .error (.errorResponse 503 "busy")
      else .ok (some sampleDiscountCode)
    readResp := .ok (some sampleDiscountCode) }

/-- An update environment in which the get, the post and the trailing
read all succeed. -/
def fullUpdateEnv : UpdateEnv :=
  { getResp := .ok sampleDiscountCode, postResp := .ok ()
    readResp := .ok (some sampleDiscountCode) }

/-- C2: the create handler is the only one with failure recovery: its
create post sits inside one bounded timed retry (`fuel` counts the extra
attempts the one-minute window admits, so at most `fuel + 1` create posts
are issued, and a retry genuinely occurs in a concrete run), while the
read, delete and update handlers issue each of their remote calls exactly
once with no retry: read's trace is exactly its one get, delete's exactly
its one delete, and update's trace contains its get once and its post at
most once (followed only by the trailing read's single get). -/
theorem create_bounded_retry_others_no_retry :
    (∀ (h : Helpers) (env : CreateEnv) (fuel : Nat) (d : ResourceData),
      (resourceDiscountCodeCreate h env fuel d).1.countP
        RemoteCall.isCreatePost ≤ fuel + 1) ∧
    ((resourceDiscountCodeCreate sampleHelpers retryingCreateEnv 5
        sampleData).1.countP RemoteCall.isCreatePost = 2) ∧
    (∀ (h : Helpers) (env : ReadEnv) (d : ResourceData),
      (resourceDiscountCodeRead h env d).1 = [.getById d.id]) ∧
    (∀ (env : DeleteEnv) (d : ResourceData),
      (resourceDiscountCodeDelete env d).1 =
        [.deleteById d.id d.version true]) ∧
    (∀ (h : Helpers) (env : UpdateEnv) (d : ResourceData),
      (resourceDiscountCodeUpdate h env d).1 = [.getById d.id] ∨
      (∃ dcid input, (resourceDiscountCodeUpdate h env d).1 =
        [.getById d.id, .postUpdate dcid input]) ∨
      (∃ dcid input, (resourceDiscountCodeUpdate h env d).1 =
        [.getById d.id, .postUpdate dcid input, .getById d.id])) := by
  refine ⟨?_, rfl, read_calls_eq, delete_calls_eq, update_calls_cases⟩
  intro h env fuel d
  rcases create_calls_cases h env fuel d with h0 | ⟨draft, k, hk1, hk2, hcase⟩
  · rw [h0]; simp
  · rcases hcase with hrep | ⟨gid, hrep⟩
    · rw [hrep, countP_replicate_create]; exact hk2
    · rw [hrep, List.countP_append, countP_replicate_create]
      simp [List.countP_cons, RemoteCall.isCreatePost]
      exact hk2

/-- Counterexample to C5: a successful update issues three remote calls
(the get, the update post, and the trailing read's get), not one. -/
theorem update_single_remote_call_counterexample :
    (resourceDiscountCodeUpdate sampleHelpers fullUpdateEnv
      sampleData).1.length = 3 := rfl

/-- C5 amended: read and delete perform exactly one remote call; update
performs between one and three (its get, then at most one post, then the
trailing read's single get); create performs at most `fuel + 1` create
attempts plus at most one trailing get, hence at most `fuel + 2` calls. -/
theorem handlers_remote_call_counts :
    (∀ (h : Helpers) (env : ReadEnv) (d : ResourceData),
      (resourceDiscountCodeRead h env d).1.length = 1) ∧
    (∀ (env : DeleteEnv) (d : ResourceData),
      (resourceDiscountCodeDelete env d).1.length = 1) ∧
    (∀ (h : Helpers) (env : UpdateEnv) (d : ResourceData),
      1 ≤ (resourceDiscountCodeUpdate h env d).1.length ∧
      (resourceDiscountCodeUpdate h env d).1.length ≤ 3) ∧
    (∀ (h : Helpers) (env : CreateEnv) (fuel : Nat) (d : ResourceData),
      (resourceDiscountCodeCreate h env fuel d).1.length ≤ fuel + 2) := by
  refine ⟨?_, ?_, ?_, ?_⟩
  · intro h env d; rw [read_calls_eq]; rfl
  · intro env d; rw [delete_calls_eq]; rfl
  · intro h env d
    rcases update_calls_cases h env d with h0 | ⟨_, _, h0⟩ | ⟨_, _, h0⟩ <;>
      rw [h0] <;> simp
  · intro h env fuel d
    rcases create_calls_cases h env fuel d with h0 | ⟨draft, k, hk1, hk2, hcase⟩
    · rw [h0]; simp
    · rcases hcase with hrep | ⟨gid, hrep⟩
      · rw [hrep]; simp; omega
      · rw [hrep]; simp; omega

/-- A read environment answering with a 404 error response. -/
def read404Env : ReadEnv := { getResp := .error (.errorResponse 404 "nf") }

/-- C8: a 404 error response, or a missing discount code, makes the read
handler clear the resource id and return no diagnostics; conversely a
read diagnostic can only come from a non-404 error. -/
theorem read_404_or_missing_clears_id (h : Helpers) (env : ReadEnv)
    (d : ResourceData) :
    (((∃ msg, env.getResp = .error (.errorResponse 404 msg)) ∨
        env.getResp = .ok none) →
      (resourceDiscountCodeRead h env d).2.1.id = "" ∧
      (resourceDiscountCodeRead h env d).2.2 = []) ∧
    ((resourceDiscountCodeRead h env d).2.2 ≠ [] →
      ∃ e, env.getResp = .error e ∧
        ∀ msg, e ≠ GoError.errorResponse 404 msg) := by
  constructor
  · rintro (⟨msg, hresp⟩ | hresp) <;>
      unfold resourceDiscountCodeRead <;> rw [hresp] <;> simp
  · intro hne
    cases hresp : env.getResp with
    | ok v =>
      cases v <;> unfold resourceDiscountCodeRead at hne <;>
        rw [hresp] at hne <;> simp at hne
    | error e =>
      cases e with
      | errorResponse statusCode message =>
        unfold resourceDiscountCodeRead at hne
        rw [hresp] at hne
        by_cases h404 : statusCode = 404
        · simp [h404] at hne
        · refine ⟨_, rfl, fun msg hcontra => ?_⟩
          injection hcontra with h1 h2
          exact h404 h1
      | parseError message =>
        exact ⟨_, rfl, fun msg hcontra => by cases hcontra⟩
      | basic message =>
        exact ⟨_, rfl, fun msg hcontra => by cases hcontra⟩

/-- Witness for C8: a concrete 404 read clears the id with no
diagnostics. -/
theorem read_404_or_missing_clears_id_witness :
    (resourceDiscountCodeRead sampleHelpers read404Env sampleData).2.1.id = "" ∧
    (resourceDiscountCodeRead sampleHelpers read404Env sampleData).2.2 = [] :=
  (read_404_or_missing_clears_id sampleHelpers read404Env sampleData).1
    (Or.inl ⟨"nf", rfl⟩)

/-- Counterexample to C4: a 404 error response returned by the read get
is an SDK error, yet the read handler produces no diagnostic at all. -/
theorem read_error_always_diag_counterexample :
    read404Env.getResp =
      .error (GoError.errorResponse 404 "nf") ∧
    (resourceDiscountCodeRead sampleHelpers read404Env sampleData).2.2 = [] :=
  ⟨rfl, rfl⟩

/-- C4 amended: every SDK error inside read or update is forwarded as a
`diag.FromErr` diagnostic, except a 404 error response on a read get
(direct, or as update's trailing refresh), which is swallowed: read
forwards every non-404 error; update forwards every error of its own get
and of its post, and every non-404 error of its trailing read. -/
theorem read_update_forward_errors (h : Helpers) (d : ResourceData) :
    (∀ (env : ReadEnv) e, env.getResp = .error e →
      (∀ msg, e ≠ GoError.errorResponse 404 msg) →
      (resourceDiscountCodeRead h env d).2.2 = [.fromErr e]) ∧
    (∀ (env : UpdateEnv) e, env.getResp = .error e →
      (resourceDiscountCodeUpdate h env d).2.2 = [.fromErr e]) ∧
    (∀ (env : UpdateEnv) dc acts e, env.getResp = .ok dc →
      buildDiscountCodeUpdateActions h d = .ok acts →
      env.postResp = .error e →
      (resourceDiscountCodeUpdate h env d).2.2 = [.fromErr e]) ∧
    (∀ (env : UpdateEnv) dc acts e, env.getResp = .ok dc →
      buildDiscountCodeUpdateActions h d = .ok acts →
      env.postResp = .ok () →
      env.readResp = .error e →
      (∀ msg, e ≠ GoError.errorResponse 404 msg) →
      (resourceDiscountCodeUpdate h env d).2.2 = [.fromErr e]) := by
  refine ⟨?_, ?_, ?_, ?_⟩
  · intro env e hresp h404
    unfold resourceDiscountCodeRead
    rw [hresp]
    cases e with
    | errorResponse statusCode message =>
      have hne : statusCode ≠ 404 := fun hc => h404 message (by rw [hc])
      simp [hne]
    | parseError message => rfl
    | basic message => rfl
  · intro env e hresp
    unfold resourceDiscountCodeUpdate
    rw [hresp]
  · intro env dc acts e hget hbuild hpost
    unfold resourceDiscountCodeUpdate
    rw [hget, hbuild, hpost]
  · intro env dc acts e hget hbuild hpost hread h404
    unfold resourceDiscountCodeUpdate
    rw [hget, hbuild, hpost]
    dsimp only
    unfold resourceDiscountCodeRead
    rw [show ({ getResp := env.readResp } : ReadEnv).getResp = .error e from hread]
    cases e with
    | errorResponse statusCode message =>
      have hne : statusCode ≠ 404 := fun hc => h404 message (by rw [hc])
      simp [hne]
    | parseError message => rfl
    | basic message => rfl

/-- Witness for C4 (amended): a concrete 500 error on the read get is
forwarded as a diagnostic. -/
theorem read_update_forward_errors_witness :
    (resourceDiscountCodeRead sampleHelpers
      { getResp := .error (.errorResponse 500 "boom") } sampleData).2.2 =
      [.fromErr (.errorResponse 500 "boom")] :=
  (read_update_forward_errors sampleHelpers sampleData).1
    { getResp := .error (.errorResponse 500 "boom") } _ rfl
    (fun msg hcontra => by cases hcontra)

/-- A concrete resource configured with an unparsable `valid_from`. -/
def sampleDataBadTime : ResourceData :=
  { id := "", old := sampleState,
    new := { sampleState with validFrom := "bad" }, version := 0 }

/-- C9: a non-empty `valid_from` (respectively `valid_until`, when
`valid_from` did not already fail) that fails time parsing makes the
create handler return a diagnostic built from the parse error, with no
remote call issued and the resource data untouched. -/
theorem create_parse_error_no_remote_call (h : Helpers) (env : CreateEnv)
    (fuel : Nat) (d : ResourceData) :
    (∀ e, d.new.validFrom.length > 0 →
      h.unmarshallTime d.new.validFrom = .error e →
      resourceDiscountCodeCreate h env fuel d = ([], d, [.fromErr e])) ∧
    (∀ e, (d.new.validFrom.length = 0 ∨
        ∃ t, h.unmarshallTime d.new.validFrom = .ok t) →
      d.new.validUntil.length > 0 →
      h.unmarshallTime d.new.validUntil = .error e →
      resourceDiscountCodeCreate h env fuel d = ([], d, [.fromErr e])) := by
  constructor
  · intro e hlen herr
    unfold resourceDiscountCodeCreate
    rw [if_pos hlen, herr]
    rfl
  · intro e hvf hlen herr
    unfold resourceDiscountCodeCreate
    rcases hvf with hvf | ⟨t, hvf⟩
    · rw [if_neg (by omega), if_pos hlen, herr]
      rfl
    · by_cases hflen : d.new.validFrom.length > 0
      · rw [if_pos hflen, hvf]
        dsimp only [Except.map]
        rw [if_pos hlen, herr]
      · rw [if_neg hflen, if_pos hlen, herr]
        rfl

/-- Witness for C9: the concrete unparsable `valid_from` value `"bad"`
yields exactly the parse-error diagnostic and an empty trace. -/
theorem create_parse_error_no_remote_call_witness :
    resourceDiscountCodeCreate sampleHelpers retryingCreateEnv 3
      sampleDataBadTime =
      ([], sampleDataBadTime, [.fromErr (.parseError "bad")]) :=
  (create_parse_error_no_remote_call sampleHelpers retryingCreateEnv 3
    sampleDataBadTime).1 (.parseError "bad") (by decide) rfl

end DiscountCodeResource
